import Mathlib

/-!
Verification development for `serve.py`, a small local development HTTP
file server (class `DevServer`).  The Python source is shallowly embedded:
paths and MIME strings become `List Char`, the handler's extension table a
function `List Char → Option (List Char)`, and the `start()` lifecycle a
pure function from an environment (bind outcome, browser outcome, request
stream) to an event trace together with the process outcome.

The request path machinery (`translate_path`, `guess_type`,
`posixpath.normpath`, `posixpath.splitext`) lives in the Python standard
library (`http.server.SimpleHTTPRequestHandler`, `posixpath`); `serve.py`
installs it via `handler = http.server.SimpleHTTPRequestHandler`.  Those
functions are embedded here following the CPython implementations, since
the behaviour of the program under specification is theirs.
-/

/-- Paths, MIME types and other Python strings are embedded as `List Char`. -/
abbrev Str := List Char

/-- Index of the last occurrence of `c` in the list (Python `str.rfind`,
with `none` standing for the result `-1`). -/
def lastIdx (c : Char) : Str → Option Nat
  | [] => none
  | x :: xs =>
    match lastIdx c xs with
    | some i => some (i + 1)
    | none => if x = c then some 0 else none

/-- Python `str.lower`, restricted to the per-character lowering that the
extension strings in play require. -/
def lowerStr (s : Str) : Str := s.map Char.toLower

/-- Extension part of `posixpath.splitext(p)`: the suffix starting at the
last dot, provided that dot lies after the last `/` and the final path
component has at least one non-dot character before it (so dotfiles such
as `.bashrc` — or a file named exactly `.ts` — have empty extension).
Embeds CPython `genericpath._splitext` with `sep = '/'`, `extsep = '.'`. -/
def splitextExt (p : Str) : Str :=
  match lastIdx '.' p with
  | none => []
  | some d =>
    let s : Nat :=
      match lastIdx '/' p with
      | none => 0
      | some i => i + 1
    if s ≤ d ∧ ((p.drop s).take (d - s)).any (fun ch => !(ch == '.')) then p.drop d else []

/-- The default value of `http.server.SimpleHTTPRequestHandler.extensions_map`
(CPython 3.9+): the encodings map the handler class ships with before
`serve.py` mutates it.  Platform MIME defaults are consulted separately by
`guess_type` through its fallback (modelled as a parameter below). -/
def defaultExtensionsMap : Str → Option Str := fun e =>
  if e = ".gz".toList then some "application/gzip".toList
  else if e = ".Z".toList then some "application/octet-stream".toList
  else if e = ".bz2".toList then some "application/x-bzip2".toList
  else if e = ".xz".toList then some "application/x-xz".toList
  else none

/-- Effect of `handler.extensions_map.update({'.ts': …, '.js': …, '.mjs': …})`
in `DevServer.start` (serve.py lines 23–27) on the table `m` it mutates. -/
def updateExtensionsMap (m : Str → Option Str) : Str → Option Str := fun e =>
  if e = ".ts".toList then some "text/javascript".toList
  else if e = ".js".toList then some "application/javascript".toList
  else if e = ".mjs".toList then some "application/javascript".toList
  else m e

/-- `SimpleHTTPRequestHandler.guess_type`: look the `splitext` extension up
in `extensions_map` (exact, then lower-cased), else fall back to the
platform's `mimetypes.guess_type` (abstracted as `platformGuess`), else
`application/octet-stream`. -/
def guessType (extMap platformGuess : Str → Option Str) (path : Str) : Str :=
  let ext := splitextExt path
  match extMap ext with
  | some t => t
  | none =>
    match extMap (lowerStr ext) with
    | some t => t
    | none =>
      match platformGuess path with
      | some t => t
      | none => "application/octet-stream".toList

/-- Python `list.split(sep)` on characters: `splitOnChar c l` cuts `l` at
every occurrence of `c` (occurrences are dropped, empty pieces kept). -/
def splitOnChar (c : Char) : Str → List Str
  | [] => [[]]
  | x :: xs =>
    if x = c then [] :: splitOnChar c xs
    else
      match splitOnChar c xs with
      | [] => [[x]]
      | y :: ys => (x :: y) :: ys

/-- Prefix of `p` before the first occurrence of `c`
(Python `p.split(c, 1)[0]`). -/
def stripAfter (c : Char) (p : Str) : Str := p.takeWhile (fun x => !(x == c))

/-- ASCII whitespace recognised by Python `str.rstrip()` (the request paths
in play are ASCII). -/
def isPyWhitespace (c : Char) : Bool :=
  c == ' ' || c == '\t' || c == '\n' || c == '\r' || c == '\x0b' || c == '\x0c'

/-- Python `p.rstrip()`. -/
def rstripWs (p : Str) : Str := (p.reverse.dropWhile isPyWhitespace).reverse

/-- `path.rstrip().endswith('/')` from `translate_path`. -/
def hasTrailingSlash (p : Str) : Bool := (rstripWs p).getLast? == some '/'

/-- Embedding of `posixpath.normpath`: collapse empty and `.` components,
cancel `..` against preceding components, keep leading `..` on relative
paths, normalise leading slashes. -/
def normpath (p : Str) : Str :=
  if p.isEmpty then ".".toList
  else
    let initialSlashes : Nat :=
      if p.take 1 = "/".toList then
        if p.take 2 = "//".toList ∧ ¬ p.take 3 = "///".toList then 2 else 1
      else 0
    let newComps := (splitOnChar '/' p).foldl
      (fun acc comp =>
        if comp.isEmpty || comp == ".".toList then acc
        else if !(comp == "..".toList) || (initialSlashes == 0 && acc.isEmpty)
              || (acc.getLast? == some "..".toList) then acc ++ [comp]
        else if !acc.isEmpty then acc.dropLast
        else acc) []
    let out := List.replicate initialSlashes '/' ++ List.intercalate "/".toList newComps
    if out.isEmpty then ".".toList else out

/-- `posixpath.join(a, b)` for the two-argument case `translate_path` uses. -/
def pjoin (a b : Str) : Str :=
  if b.head? = some '/' then b
  else if a = [] ∨ a.getLast? = some '/' then a ++ b
  else a ++ '/' :: b

/-- Folding `posixpath.join` over the kept words, starting from the
serving directory, as the loop in `translate_path` does. -/
def joinWords (dir : Str) (ws : List Str) : Str := ws.foldl pjoin dir

/-- A word that `translate_path` may append to the serving directory:
produced by splitting on `/` (so it contains no `/`), non-empty, and not
one of the filtered components `.` and `..`. -/
def goodWord (w : Str) : Prop :=
  w ≠ [] ∧ '/' ∉ w ∧ w ≠ ".".toList ∧ w ≠ "..".toList

instance (w : Str) : Decidable (goodWord w) := by
  unfold goodWord; exact inferInstance

/-- `t` extends `dir`: everything the server touches stays below the
serving directory in this sense. -/
def underDir (dir t : Str) : Prop := ∃ rest, t = dir ++ rest

/-- `t` is the serving directory extended by plain path words only (no
`..`, no `.`, no empty word, no slash inside a word), possibly with the
trailing slash `translate_path` re-appends. -/
def confinedTo (dir t : Str) : Prop :=
  ∃ (ws : List Str) (tb : Bool), (∀ w ∈ ws, goodWord w) ∧
    t = (if tb then joinWords dir ws ++ "/".toList else joinWords dir ws)

/-- Embedding of `SimpleHTTPRequestHandler.translate_path`: drop query and
fragment, remember the trailing slash, percent-decode (`unquote` is kept
abstract), `normpath`, split on `/`, drop empty, `.` and `..` words, and
join the remainder onto the serving directory.  (The `os.path.dirname(word)`
guard of the source is vacuous here: words produced by splitting on `/`
never contain `/`.) -/
def translatePath (unquote : Str → Str) (directory rawPath : Str) : Str :=
  let p1 := stripAfter '?' rawPath
  let p2 := stripAfter '#' p1
  let ts := hasTrailingSlash p2
  let p4 := normpath (unquote p2)
  let words := (splitOnChar '/' p4).filter (fun w => !w.isEmpty)
  let kept := words.filter (fun w => !(w == ".".toList) && !(w == "..".toList))
  let base := joinWords directory kept
  if ts then base ++ "/".toList else base

/-- HTTP response as far as the claims observe it. -/
structure Response where
  status : Nat
  contentType : Option Str
  body : Option (List Nat)
deriving DecidableEq

/-- File-serving core of `SimpleHTTPRequestHandler.do_GET`/`send_head`:
translate the request path, look the result up in the filesystem `fs`, and
either serve the bytes with the guessed `Content-Type` or answer 404.
(Directory listing/redirect and conditional-request branches of
`send_head` are outside the claims and not modelled.) -/
def handleRequest (fs : Str → Option (List Nat)) (unquote : Str → Str)
    (platformGuess : Str → Option Str) (directory : Str)
    (extMap : Str → Option Str) (rawPath : Str) : Response :=
  let t := translatePath unquote directory rawPath
  match fs t with
  | some bytes => ⟨200, some (guessType extMap platformGuess t), some bytes⟩
  | none => ⟨404, none, none⟩

/-- `pathlib.Path(p).parent` for the plain paths in play: drop the last
component (`.` when there is no separator, `/` at the root). -/
def pathParent (p : Str) : Str :=
  match lastIdx '/' p with
  | none => ".".toList
  | some 0 => "/".toList
  | some i => p.take i

/-- A path is absolute when it starts with `/` (POSIX). -/
def isAbsPath (p : Str) : Prop := p.head? = some '/'

instance (p : Str) : Decidable (isAbsPath p) := by
  unfold isAbsPath; exact inferInstance

/-- State established by `DevServer.__init__` (serve.py lines 13–15). -/
structure DevServer where
  port : Nat
  projectRoot : Str
deriving DecidableEq

/-- `DevServer.__init__`: store the port (default 8000) and
`Path(__file__).parent`, the directory containing the entry artifact.
The process working directory `cwd` is passed to the model only to record
that construction never consults it. -/
def mkDevServer (cwd entryFile : Str) (port : Option Nat) : DevServer :=
  ⟨port.getD 8000, pathParent entryFile⟩

/-- Python exceptions as far as `start()` distinguishes them: only
`KeyboardInterrupt` is caught, everything else is opaque. -/
inductive Exc
  | keyboardInterrupt
  | other (id : Nat)
deriving DecidableEq

/-- Possible outcomes of the `webbrowser.open(...)` call: it returns a
boolean, or it raises. -/
inductive BrowserOutcome
  | returns (ok : Bool)
  | raises (e : Exc)
deriving DecidableEq

/-- Observable events of one `DevServer.start()` run, in program order. -/
inductive Event
  | chdir (dir : Str)
  | mimeUpdate
  | bindAttempt (port : Nat)
  | bound
  | banner
  | browserLaunch (url : Str)
  | serveEnter
  | serveRequest (raw : Str)
  | interrupt
  | shutdownNotice
  | socketClose
deriving DecidableEq

/-- How the process leaves `start()`: normal return, the `OSError` of a
failed bind, or a propagated Python exception. -/
inductive Outcome
  | normal
  | osError (errno : Nat)
  | raised (e : Exc)
deriving DecidableEq

/-- Environment a `start()` run unfolds in: whether the `TCPServer` bind
raises (`bindErr`), whether an exception (e.g. an interrupt) arrives during
the banner prints, the outcome of the browser launch, the request paths the
serve loop handles before the operator interrupt arrives, the filesystem,
and the platform's percent-decoder and MIME-guess fallback. -/
structure Env where
  bindErr : Option Nat
  bannerExc : Option Exc
  browser : BrowserOutcome
  requests : List Str
  fs : Str → Option (List Nat)
  unquote : Str → Str
  platformGuess : Str → Option Str

/-- Result of a `start()` run: its event trace, how it ended, the final
process working directory, the handler class's extension table after the
run (the same shared table the run mutates), and the responses produced. -/
structure RunResult where
  events : List Event
  outcome : Outcome
  finalCwd : Str
  tableAfter : Str → Option Str
  responses : List Response

/-- URL passed to `webbrowser.open`. -/
def serveUrl (port : Nat) : Str := "http://localhost:".toList ++ (Nat.repr port).toList

/-- Embedding of `DevServer.start` (serve.py lines 17–41).
Control flow of the source: `os.chdir(project_root)`; mutate the shared
`extensions_map` in place; construct `socketserver.TCPServer(("", port),
handler)` inside a `with` block (bind failure propagates, nothing else
runs); print the banner (an exception there is not caught — the `try`
starts later — but the `with` still closes the socket); inside
`try: webbrowser.open(...); httpd.serve_forever() except KeyboardInterrupt:
print(...)`.  `serve_forever` handles requests sequentially — absorbing
per-request errors via `handle_error` and accept-time `OSError`s — until
the operator's `KeyboardInterrupt` reaches it, which the `except` turns
into the shutdown notice and a normal return; the `with` block closes the
listening socket on every exit from its body.  Each request is answered by
`SimpleHTTPRequestHandler` with the directory fixed to the process working
directory at request time and the (already mutated) shared table. -/
def start (cfg : DevServer) (cwd0 : Str) (table0 : Str → Option Str) (env : Env) : RunResult :=
  let table1 := updateExtensionsMap table0
  let pre := [Event.chdir cfg.projectRoot, Event.mimeUpdate, Event.bindAttempt cfg.port]
  match env.bindErr with
  | some errno => ⟨pre, Outcome.osError errno, cfg.projectRoot, table1, []⟩
  | none =>
    let ev1 := pre ++ [Event.bound]
    match env.bannerExc with
    | some e => ⟨ev1 ++ [Event.socketClose], Outcome.raised e, cfg.projectRoot, table1, []⟩
    | none =>
      let ev2 := ev1 ++ [Event.banner, Event.browserLaunch (serveUrl cfg.port)]
      match env.browser with
      | BrowserOutcome.raises Exc.keyboardInterrupt =>
        ⟨ev2 ++ [Event.shutdownNotice, Event.socketClose], Outcome.normal,
          cfg.projectRoot, table1, []⟩
      | BrowserOutcome.raises (Exc.other i) =>
        ⟨ev2 ++ [Event.socketClose], Outcome.raised (Exc.other i),
          cfg.projectRoot, table1, []⟩
      | BrowserOutcome.returns _ =>
        ⟨ev2 ++ [Event.serveEnter] ++ env.requests.map Event.serveRequest
            ++ [Event.interrupt, Event.shutdownNotice, Event.socketClose],
          Outcome.normal, cfg.projectRoot, table1,
          env.requests.map
            (handleRequest env.fs env.unquote env.platformGuess cfg.projectRoot table1)⟩

/-- Number of events satisfying `p` in a trace. -/
def countEvent (p : Event → Bool) (l : List Event) : Nat := (l.filter p).length

/-- Recogniser for `chdir` events. -/
def isChdirEv : Event → Bool
  | Event.chdir _ => true
  | _ => false

/-- Recogniser for the extension-table mutation event. -/
def isMimeEv : Event → Bool
  | Event.mimeUpdate => true
  | _ => false

/-- Recogniser for bind attempts. -/
def isBindEv : Event → Bool
  | Event.bindAttempt _ => true
  | _ => false

/-- Recogniser for browser-launch attempts. -/
def isLaunchEv : Event → Bool
  | Event.browserLaunch _ => true
  | _ => false

/-- Recogniser for entry into the blocking serve loop. -/
def isServeEnterEv : Event → Bool
  | Event.serveEnter => true
  | _ => false

/-- Recogniser for the socket release. -/
def isCloseEv : Event → Bool
  | Event.socketClose => true
  | _ => false

/-- The part of a trace strictly before the serve loop is entered. -/
def eventsBeforeServe (l : List Event) : List Event :=
  l.takeWhile (fun e => !(isServeEnterEv e))

/-- Shared empty filesystem for concrete runs. -/
def fsNone : Str → Option (List Nat) := fun _ => none

/-- Shared trivial platform MIME fallback for concrete runs. -/
def pgNone : Str → Option Str := fun _ => none

/-- Shared quiet environment: successful bind, undisturbed banner, the
given browser outcome and request stream, empty filesystem, identity
percent-decoder, trivial platform fallback. -/
def envOf (browser : BrowserOutcome) (requests : List Str) : Env :=
  ⟨none, none, browser, requests, fsNone, id, pgNone⟩

/-- Shared example configuration: port 8000, serving root `/root`. -/
def cfgEx : DevServer := ⟨8000, "/root".toList⟩

theorem splitOnChar_ne_nil (c : Char) (l : Str) : splitOnChar c l ≠ [] := by
  induction l with
  | nil => simp [splitOnChar]
  | cons x xs ih =>
    simp only [splitOnChar]
    by_cases h : x = c
    · simp [h]
    · rw [if_neg h]
      cases hs : splitOnChar c xs with
      | nil => simp
      | cons y ys => simp

theorem splitOnChar_not_mem (c : Char) (l : Str) :
    ∀ w ∈ splitOnChar c l, c ∉ w := by
  induction l with
  | nil =>
    intro w hw
    simp only [splitOnChar, List.mem_singleton] at hw
    simp [hw]
  | cons x xs ih =>
    intro w hw
    simp only [splitOnChar] at hw
    by_cases h : x = c
    · rw [if_pos h] at hw
      rcases List.mem_cons.mp hw with h1 | h2
      · simp [h1]
      · exact ih w h2
    · rw [if_neg h] at hw
      cases hs : splitOnChar c xs with
      | nil => exact absurd hs (splitOnChar_ne_nil c xs)
      | cons y ys =>
        rw [hs] at hw
        rcases List.mem_cons.mp hw with h1 | h2
        · subst h1
          intro hc
          rcases List.mem_cons.mp hc with h3 | h4
          · exact h h3.symm
          · exact ih y (by rw [hs]; exact List.mem_cons_self y ys) h4
        · exact ih w (by rw [hs]; exact List.mem_cons_of_mem y h2)

theorem underDir_refl (d : Str) : underDir d d := ⟨[], by simp⟩

theorem underDir_trans {a b c : Str} (h1 : underDir a b) (h2 : underDir b c) :
    underDir a c := by
  obtain ⟨r1, e1⟩ := h1
  obtain ⟨r2, e2⟩ := h2
  exact ⟨r1 ++ r2, by rw [e2, e1, List.append_assoc]⟩

theorem pjoin_underDir (a w : Str) (h : '/' ∉ w) : underDir a (pjoin a w) := by
  unfold pjoin
  by_cases hw : w.head? = some '/'
  · exfalso
    cases w with
    | nil => simp at hw
    | cons x xs =>
      simp only [List.head?_cons, Option.some.injEq] at hw
      subst hw
      exact h (List.mem_cons_self _ _)
  · rw [if_neg hw]
    by_cases ha : a = [] ∨ a.getLast? = some '/'
    · rw [if_pos ha]
      exact ⟨w, rfl⟩
    · rw [if_neg ha]
      exact ⟨'/' :: w, rfl⟩

theorem joinWords_underDir (ws : List Str) :
    ∀ dir, (∀ w ∈ ws, '/' ∉ w) → underDir dir (joinWords dir ws) := by
  induction ws with
  | nil =>
    intro dir _
    exact underDir_refl dir
  | cons w ws ih =>
    intro dir h
    have h1 : underDir dir (pjoin dir w) :=
      pjoin_underDir dir w (h w (List.mem_cons_self _ _))
    have h2 : underDir (pjoin dir w) (joinWords (pjoin dir w) ws) :=
      ih _ (fun x hx => h x (List.mem_cons_of_mem _ hx))
    exact underDir_trans h1 (by simpa [joinWords] using h2)

/-- The words `translate_path` keeps and joins onto the directory,
factored out of `translatePath` for reasoning (definitionally equal to the
intermediate value `kept` there). -/
def keptWords (unq : Str → Str) (raw : Str) : List Str :=
  ((splitOnChar '/' (normpath (unq (stripAfter '#' (stripAfter '?' raw))))).filter
    (fun w => !w.isEmpty)).filter (fun w => !(w == ".".toList) && !(w == "..".toList))

theorem translatePath_eq (unq : Str → Str) (dir raw : Str) :
    translatePath unq dir raw =
      (if hasTrailingSlash (stripAfter '#' (stripAfter '?' raw)) then
        joinWords dir (keptWords unq raw) ++ "/".toList
      else joinWords dir (keptWords unq raw)) := rfl

theorem keptWords_good (unq : Str → Str) (raw : Str) :
    ∀ w ∈ keptWords unq raw, goodWord w := by
  intro w hw
  unfold keptWords at hw
  rw [List.mem_filter] at hw
  obtain ⟨hw1, hcond⟩ := hw
  rw [List.mem_filter] at hw1
  obtain ⟨hmem, hne⟩ := hw1
  refine ⟨?_, splitOnChar_not_mem '/' _ w hmem, ?_, ?_⟩
  · intro h
    subst h
    simp at hne
  · intro h
    subst h
    simp at hcond
  · intro h
    subst h
    simp at hcond

theorem translatePath_confined (unq : Str → Str) (dir raw : Str) :
    confinedTo dir (translatePath unq dir raw) := by
  rw [translatePath_eq]
  exact ⟨keptWords unq raw, hasTrailingSlash (stripAfter '#' (stripAfter '?' raw)),
    keptWords_good unq raw, rfl⟩

theorem translatePath_underDir (unq : Str → Str) (dir raw : Str) :
    underDir dir (translatePath unq dir raw) := by
  obtain ⟨ws, tb, hg, he⟩ := translatePath_confined unq dir raw
  have h1 : underDir dir (joinWords dir ws) :=
    joinWords_underDir ws dir (fun w hw => (hg w hw).2.1)
  cases tb with
  | false => simpa [he] using h1
  | true =>
    rw [he]
    obtain ⟨r, hr⟩ := h1
    exact ⟨r ++ "/".toList, by simp [hr]⟩

theorem countEvent_append (p : Event → Bool) (l1 l2 : List Event) :
    countEvent p (l1 ++ l2) = countEvent p l1 + countEvent p l2 := by
  simp [countEvent, List.filter_append]

theorem countEvent_map_serveRequest (p : Event → Bool)
    (h : ∀ r, p (Event.serveRequest r) = false) (l : List Str) :
    countEvent p (l.map Event.serveRequest) = 0 := by
  induction l with
  | nil => rfl
  | cons a t ih =>
    simp only [List.map_cons, countEvent, List.filter_cons, h a] at *
    simpa [countEvent] using ih

theorem srvmap_count_mime (l : List Str) :
    countEvent isMimeEv (l.map Event.serveRequest) = 0 :=
  countEvent_map_serveRequest _ (fun _ => rfl) l

theorem srvmap_count_chdir (l : List Str) :
    countEvent isChdirEv (l.map Event.serveRequest) = 0 :=
  countEvent_map_serveRequest _ (fun _ => rfl) l

theorem srvmap_count_bind (l : List Str) :
    countEvent isBindEv (l.map Event.serveRequest) = 0 :=
  countEvent_map_serveRequest _ (fun _ => rfl) l

theorem srvmap_count_launch (l : List Str) :
    countEvent isLaunchEv (l.map Event.serveRequest) = 0 :=
  countEvent_map_serveRequest _ (fun _ => rfl) l

theorem srvmap_count_serveEnter (l : List Str) :
    countEvent isServeEnterEv (l.map Event.serveRequest) = 0 :=
  countEvent_map_serveRequest _ (fun _ => rfl) l

theorem srvmap_count_close (l : List Str) :
    countEvent isCloseEv (l.map Event.serveRequest) = 0 :=
  countEvent_map_serveRequest _ (fun _ => rfl) l

theorem guessType_override (base pg : Str → Option Str) (p e v : Str)
    (h : splitextExt p = e) (hv : updateExtensionsMap base e = some v) :
    guessType (updateExtensionsMap base) pg p = v := by
  simp only [guessType, h, hv]

theorem handleRequest_ct (fs : Str → Option (List Nat)) (unq : Str → Str)
    (pg : Str → Option Str) (dir : Str) (m : Str → Option Str) (raw : Str)
    (hst : (handleRequest fs unq pg dir m raw).status = 200) :
    (handleRequest fs unq pg dir m raw).contentType =
      some (guessType m pg (translatePath unq dir raw)) := by
  simp only [handleRequest] at *
  cases hfs : fs (translatePath unq dir raw) with
  | some b => rfl
  | none => rw [hfs] at hst; simp at hst

/-- Claim C1 counterexample: the request path `/.ts` resolves (with root
`/root`) to the file path `/root/.ts`, which ends in `.ts`; the file exists
and is served with status 200, yet its `Content-Type` is
`application/octet-stream`, not `text/javascript`, because
`posixpath.splitext` assigns a dotfile named `.ts` the empty extension and
`guess_type` therefore never consults the `.ts` override. -/
theorem c1_dotfile_counterexample :
    (".ts".toList).isSuffixOf (translatePath id "/root".toList "/.ts".toList) = true ∧
    (handleRequest (fun p => if p = "/root/.ts".toList then some [104] else none) id pgNone
      "/root".toList (updateExtensionsMap defaultExtensionsMap) "/.ts".toList).status = 200 ∧
    ¬ (handleRequest (fun p => if p = "/root/.ts".toList then some [104] else none) id pgNone
      "/root".toList (updateExtensionsMap defaultExtensionsMap) "/.ts".toList).contentType =
        some "text/javascript".toList := by
  decide

/-- Claim C1 (amended): for every request whose resolved file path has
extension `.ts` in the sense of `posixpath.splitext` (it ends in `.ts` and
the final path component has a non-dot character before that dot), the
response `Content-Type` is exactly `text/javascript`, and likewise
`application/javascript` for extensions `.js` and `.mjs` — for every base
table and every platform MIME fallback, i.e. the three overrides installed
at startup take precedence over any platform default. -/
theorem c1_content_type_override (base pg : Str → Option Str)
    (fs : Str → Option (List Nat)) (unq : Str → Str) (dir raw : Str) :
    (splitextExt (translatePath unq dir raw) = ".ts".toList →
      (handleRequest fs unq pg dir (updateExtensionsMap base) raw).status = 200 →
      (handleRequest fs unq pg dir (updateExtensionsMap base) raw).contentType =
        some "text/javascript".toList) ∧
    (splitextExt (translatePath unq dir raw) = ".js".toList →
      (handleRequest fs unq pg dir (updateExtensionsMap base) raw).status = 200 →
      (handleRequest fs unq pg dir (updateExtensionsMap base) raw).contentType =
        some "application/javascript".toList) ∧
    (splitextExt (translatePath unq dir raw) = ".mjs".toList →
      (handleRequest fs unq pg dir (updateExtensionsMap base) raw).status = 200 →
      (handleRequest fs unq pg dir (updateExtensionsMap base) raw).contentType =
        some "application/javascript".toList) := by
  refine ⟨fun hext hst => ?_, fun hext hst => ?_, fun hext hst => ?_⟩
  · rw [handleRequest_ct fs unq pg dir (updateExtensionsMap base) raw hst,
      guessType_override base pg _ _ "text/javascript".toList hext rfl]
  · rw [handleRequest_ct fs unq pg dir (updateExtensionsMap base) raw hst,
      guessType_override base pg _ _ "application/javascript".toList hext rfl]
  · rw [handleRequest_ct fs unq pg dir (updateExtensionsMap base) raw hst,
      guessType_override base pg _ _ "application/javascript".toList hext rfl]

/-- Witness for the amended C1 at the request `/app.ts` against root
`/root`: the resolved path has splitext extension `.ts`, the file is
served, and the `Content-Type` is `text/javascript`. -/
theorem c1_content_type_override_witness :
    splitextExt (translatePath id "/root".toList "/app.ts".toList) = ".ts".toList ∧
    (handleRequest (fun p => if p = "/root/app.ts".toList then some [104] else none) id pgNone
      "/root".toList (updateExtensionsMap defaultExtensionsMap) "/app.ts".toList).status = 200 ∧
    (handleRequest (fun p => if p = "/root/app.ts".toList then some [104] else none) id pgNone
      "/root".toList (updateExtensionsMap defaultExtensionsMap) "/app.ts".toList).contentType =
        some "text/javascript".toList :=
  ⟨by decide, by decide,
    (c1_content_type_override defaultExtensionsMap pgNone
      (fun p => if p = "/root/app.ts".toList then some [104] else none) id
      "/root".toList "/app.ts".toList).1 (by decide) (by decide)⟩

/-- Claim C2: every requested path, after `translate_path`, resolves to a
path that extends the serving root by plain path words only (`..` and `.`
components are discarded, so resolution never leaves `root_directory`);
response bodies therefore only ever come from the confined translated
path, a missing confined target yields a 404 not-found response, and the
serve loop goes on to answer every request of the run. -/
theorem c2_escape_confined (unq : Str → Str) (pg : Str → Option Str) (dir : Str)
    (extMap : Str → Option Str) (raw : Str) (fs : Str → Option (List Nat))
    (cfg : DevServer) (cwd0 : Str) (table0 : Str → Option Str) (env : Env) (b : Bool) :
    confinedTo dir (translatePath unq dir raw) ∧
    underDir dir (translatePath unq dir raw) ∧
    (handleRequest fs unq pg dir extMap raw).body = fs (translatePath unq dir raw) ∧
    (fs (translatePath unq dir raw) = none →
      (handleRequest fs unq pg dir extMap raw).status = 404 ∧
      (handleRequest fs unq pg dir extMap raw).body = none) ∧
    (env.bindErr = none → env.bannerExc = none → env.browser = BrowserOutcome.returns b →
      (start cfg cwd0 table0 env).responses =
        env.requests.map (handleRequest env.fs env.unquote env.platformGuess cfg.projectRoot
          (updateExtensionsMap table0))) := by
  refine ⟨translatePath_confined unq dir raw, translatePath_underDir unq dir raw, ?_, ?_, ?_⟩
  · simp only [handleRequest]
    cases hfs : fs (translatePath unq dir raw) <;> rfl
  · intro h
    simp [handleRequest, h]
  · intro h1 h2 h3
    obtain ⟨be, bx, br, rq, f, u, pgE⟩ := env
    dsimp only at h1 h2 h3
    subst h1
    subst h2
    subst h3
    rfl

/-- Witness for C2 at the classic escape request `/../../etc/passwd`
against root `/root`: the path translates to `/root/etc/passwd`; with a
filesystem that contains only the outside file `/etc/passwd`, the response
is a 404 with no body, and a run whose serve loop receives exactly this
request still produces one response per request. -/
theorem c2_escape_confined_witness :
    translatePath id "/root".toList "/../../etc/passwd".toList = "/root/etc/passwd".toList ∧
    (handleRequest (fun p => if p = "/etc/passwd".toList then some [115] else none) id pgNone
      "/root".toList (updateExtensionsMap defaultExtensionsMap)
      "/../../etc/passwd".toList).status = 404 ∧
    (handleRequest (fun p => if p = "/etc/passwd".toList then some [115] else none) id pgNone
      "/root".toList (updateExtensionsMap defaultExtensionsMap)
      "/../../etc/passwd".toList).body = none ∧
    (start cfgEx "/x".toList defaultExtensionsMap
        (envOf (BrowserOutcome.returns true) ["/../../etc/passwd".toList])).responses =
      (envOf (BrowserOutcome.returns true) ["/../../etc/passwd".toList]).requests.map
        (handleRequest fsNone id pgNone "/root".toList
          (updateExtensionsMap defaultExtensionsMap)) :=
  ⟨by decide,
    ((c2_escape_confined id pgNone "/root".toList (updateExtensionsMap defaultExtensionsMap)
      "/../../etc/passwd".toList (fun p => if p = "/etc/passwd".toList then some [115] else none)
      cfgEx "/x".toList defaultExtensionsMap
      (envOf (BrowserOutcome.returns true) ["/../../etc/passwd".toList]) true).2.2.2.1
        (by decide)).1,
    ((c2_escape_confined id pgNone "/root".toList (updateExtensionsMap defaultExtensionsMap)
      "/../../etc/passwd".toList (fun p => if p = "/etc/passwd".toList then some [115] else none)
      cfgEx "/x".toList defaultExtensionsMap
      (envOf (BrowserOutcome.returns true) ["/../../etc/passwd".toList]) true).2.2.2.1
        (by decide)).2,
    (c2_escape_confined id pgNone "/root".toList (updateExtensionsMap defaultExtensionsMap)
      "/../../etc/passwd".toList (fun p => if p = "/etc/passwd".toList then some [115] else none)
      cfgEx "/x".toList defaultExtensionsMap
      (envOf (BrowserOutcome.returns true) ["/../../etc/passwd".toList]) true).2.2.2.2
        rfl rfl rfl⟩

/-- Claim C3 counterexample: the bind error is not the only failure that
can escape to the process boundary — with a successful bind, an exception
raised by the browser-launch call that is not a `KeyboardInterrupt` also
propagates out of `start()` (only `KeyboardInterrupt` is caught there). -/
theorem c3_nonbind_escape_counterexample :
    (envOf (BrowserOutcome.raises (Exc.other 7)) []).bindErr = none ∧
    (start cfgEx "/x".toList defaultExtensionsMap
        (envOf (BrowserOutcome.raises (Exc.other 7)) [])).outcome =
      Outcome.raised (Exc.other 7) := by
  decide

/-- Claim C3 (amended): `start()` binds a TCP listening socket to
`("", port)`; if the bind fails the `OSError` propagates and the run ends
with that error before any banner, browser launch or request handling —
the trace is exactly chdir, table update, the single bind attempt, with
no retry, no port increment, no bound/serving events and no responses.
(Unlike the original claim, the bind error is not the *only* failure that
may escape: a non-`KeyboardInterrupt` exception raised after a successful
bind, e.g. by the browser launch, escapes as well.) -/
theorem c3_bind_failure_fatal (cfg : DevServer) (cwd0 : Str)
    (table0 : Str → Option Str) (env : Env) (errno : Nat)
    (h : env.bindErr = some errno) :
    (start cfg cwd0 table0 env).outcome = Outcome.osError errno ∧
    (start cfg cwd0 table0 env).events =
      [Event.chdir cfg.projectRoot, Event.mimeUpdate, Event.bindAttempt cfg.port] ∧
    (start cfg cwd0 table0 env).responses = [] := by
  obtain ⟨be, bx, br, rq, f, u, pg⟩ := env
  dsimp only at h
  subst h
  exact ⟨rfl, rfl, rfl⟩

/-- Witness for the amended C3: a concrete run whose bind raises errno 98
(address already in use) ends with that error and the three-event trace. -/
theorem c3_bind_failure_fatal_witness :
    (start cfgEx "/x".toList defaultExtensionsMap
        ⟨some 98, none, BrowserOutcome.returns true, [], fsNone, id, pgNone⟩).outcome =
      Outcome.osError 98 ∧
    (start cfgEx "/x".toList defaultExtensionsMap
        ⟨some 98, none, BrowserOutcome.returns true, [], fsNone, id, pgNone⟩).events =
      [Event.chdir "/root".toList, Event.mimeUpdate, Event.bindAttempt 8000] ∧
    (start cfgEx "/x".toList defaultExtensionsMap
        ⟨some 98, none, BrowserOutcome.returns true, [], fsNone, id, pgNone⟩).responses = [] :=
  c3_bind_failure_fatal cfgEx "/x".toList defaultExtensionsMap
    ⟨some 98, none, BrowserOutcome.returns true, [], fsNone, id, pgNone⟩ 98 rfl

/-- Claim C4 counterexample: no copy is made of the handler table — the
run mutates the shared platform handler table in place, so after `start()`
that very table maps `.ts` although its pre-existing value did not (a
build-by-copy would have left the shared table unchanged). -/
theorem c4_inplace_counterexample :
    defaultExtensionsMap ".ts".toList = none ∧
    (start cfgEx "/x".toList defaultExtensionsMap
        (envOf (BrowserOutcome.returns true) [])).tableAfter ".ts".toList =
      some "text/javascript".toList := by
  decide

/-- Claim C4 (amended): the content-type table is produced exactly once at
startup by mutating the shared platform handler table in place with the
three fixed overrides — no copy is made.  In every run the table after the
run is exactly the override-extended initial table, the single table
mutation is the second event of the trace (before the bind), and every
response of the run is computed against that same table; nothing mutates
it afterwards. -/
theorem c4_table_once (cfg : DevServer) (cwd0 : Str) (table0 : Str → Option Str) (env : Env) :
    (start cfg cwd0 table0 env).tableAfter = updateExtensionsMap table0 ∧
    countEvent isMimeEv (start cfg cwd0 table0 env).events = 1 ∧
    (start cfg cwd0 table0 env).events.take 2 =
      [Event.chdir cfg.projectRoot, Event.mimeUpdate] ∧
    ((start cfg cwd0 table0 env).responses = [] ∨
      (start cfg cwd0 table0 env).responses =
        env.requests.map (handleRequest env.fs env.unquote env.platformGuess cfg.projectRoot
          (updateExtensionsMap table0))) := by
  obtain ⟨be, bx, br, rq, f, u, pg⟩ := env
  cases be with
  | some e =>
    exact ⟨rfl, by simp [start, countEvent, List.filter, isMimeEv], rfl, Or.inl rfl⟩
  | none =>
    cases bx with
    | some e =>
      exact ⟨rfl, by simp [start, countEvent, List.filter, isMimeEv], rfl, Or.inl rfl⟩
    | none =>
      cases br with
      | returns b =>
        refine ⟨rfl, ?_, rfl, Or.inr rfl⟩
        show countEvent isMimeEv (_ ++ [Event.serveEnter] ++ rq.map Event.serveRequest
          ++ [Event.interrupt, Event.shutdownNotice, Event.socketClose]) = 1
        rw [countEvent_append, countEvent_append, countEvent_append, srvmap_count_mime]
        simp [countEvent, List.filter, isMimeEv]
      | raises e =>
        cases e with
        | keyboardInterrupt =>
          exact ⟨rfl, by simp [start, countEvent, List.filter, isMimeEv], rfl, Or.inl rfl⟩
        | other i =>
          exact ⟨rfl, by simp [start, countEvent, List.filter, isMimeEv], rfl, Or.inl rfl⟩

/-- Claim C5 counterexample: an exception raised by the browser-launch
call (other than `KeyboardInterrupt`) is not ignored — it propagates out
of `start()` and the serve loop is never entered. -/
theorem c5_browser_raise_counterexample :
    (start cfgEx "/x".toList defaultExtensionsMap
        (envOf (BrowserOutcome.raises (Exc.other 9)) [])).outcome =
      Outcome.raised (Exc.other 9) ∧
    countEvent isServeEnterEv (start cfgEx "/x".toList defaultExtensionsMap
        (envOf (BrowserOutcome.raises (Exc.other 9)) [])).events = 0 := by
  decide

/-- Claim C5 (amended): a browser-launch failure signalled through the
call's return value is silently ignored — the whole run is identical for
both return values, serving proceeds and the process exits normally.
Only that kind of failure is absorbed: a `KeyboardInterrupt` raised by the
call takes the clean-shutdown path without serving, and any other
exception it raises propagates out of `start()`. -/
theorem c5_browser_return_ignored (cfg : DevServer) (cwd0 : Str)
    (table0 : Str → Option Str) (env : Env) (b1 b2 : Bool) :
    start cfg cwd0 table0 { env with browser := BrowserOutcome.returns b1 } =
      start cfg cwd0 table0 { env with browser := BrowserOutcome.returns b2 } ∧
    (env.bindErr = none → env.bannerExc = none →
      (start cfg cwd0 table0 { env with browser := BrowserOutcome.returns b1 }).outcome =
        Outcome.normal ∧
      Event.serveEnter ∈
        (start cfg cwd0 table0 { env with browser := BrowserOutcome.returns b1 }).events) := by
  obtain ⟨be, bx, br, rq, f, u, pg⟩ := env
  constructor
  · cases be <;> cases bx <;> rfl
  · intro h1 h2
    dsimp only at h1 h2
    subst h1
    subst h2
    refine ⟨rfl, ?_⟩
    show Event.serveEnter ∈ _ ++ [Event.serveEnter] ++ rq.map Event.serveRequest
      ++ [Event.interrupt, Event.shutdownNotice, Event.socketClose]
    simp

/-- Witness for the amended C5: with a quiet environment, the run with the
launch call returning `true` equals the run with it returning `false`, the
outcome is a normal exit and the serve loop is entered. -/
theorem c5_browser_return_ignored_witness :
    start cfgEx "/x".toList defaultExtensionsMap
        { envOf (BrowserOutcome.returns true) [] with browser := BrowserOutcome.returns true } =
      start cfgEx "/x".toList defaultExtensionsMap
        { envOf (BrowserOutcome.returns true) [] with browser := BrowserOutcome.returns false } ∧
    (start cfgEx "/x".toList defaultExtensionsMap
        { envOf (BrowserOutcome.returns true) [] with
          browser := BrowserOutcome.returns true }).outcome = Outcome.normal ∧
    Event.serveEnter ∈ (start cfgEx "/x".toList defaultExtensionsMap
        { envOf (BrowserOutcome.returns true) [] with
          browser := BrowserOutcome.returns true }).events :=
  ⟨(c5_browser_return_ignored cfgEx "/x".toList defaultExtensionsMap
      (envOf (BrowserOutcome.returns true) []) true false).1,
    ((c5_browser_return_ignored cfgEx "/x".toList defaultExtensionsMap
      (envOf (BrowserOutcome.returns true) []) true false).2 rfl rfl).1,
    ((c5_browser_return_ignored cfgEx "/x".toList defaultExtensionsMap
      (envOf (BrowserOutcome.returns true) []) true false).2 rfl rfl).2⟩

/-- Claim C6: the only transition out of the serving state is the operator
interrupt — in every run that enters the serve loop, the trace is exactly
the startup prefix, the serve-loop entry, one event per handled request,
then interrupt, shutdown notice and socket release; the run ends normally
and the serve loop is entered exactly once (no serving-to-bound
transition, no restart in place). -/
theorem c6_interrupt_shutdown (cfg : DevServer) (cwd0 : Str)
    (table0 : Str → Option Str) (env : Env) (b : Bool)
    (h1 : env.bindErr = none) (h2 : env.bannerExc = none)
    (h3 : env.browser = BrowserOutcome.returns b) :
    (start cfg cwd0 table0 env).events =
      [Event.chdir cfg.projectRoot, Event.mimeUpdate, Event.bindAttempt cfg.port, Event.bound,
        Event.banner, Event.browserLaunch (serveUrl cfg.port), Event.serveEnter]
        ++ env.requests.map Event.serveRequest
        ++ [Event.interrupt, Event.shutdownNotice, Event.socketClose] ∧
    (start cfg cwd0 table0 env).outcome = Outcome.normal ∧
    countEvent isServeEnterEv (start cfg cwd0 table0 env).events = 1 := by
  obtain ⟨be, bx, br, rq, f, u, pg⟩ := env
  dsimp only at h1 h2 h3
  subst h1
  subst h2
  subst h3
  refine ⟨by simp [start], rfl, ?_⟩
  show countEvent isServeEnterEv (_ ++ [Event.serveEnter] ++ rq.map Event.serveRequest
    ++ [Event.interrupt, Event.shutdownNotice, Event.socketClose]) = 1
  rw [countEvent_append, countEvent_append, countEvent_append, srvmap_count_serveEnter]
  simp [countEvent, List.filter, isServeEnterEv]

/-- Witness for C6: a concrete quiet run with one request produces exactly
the expected trace, ends normally and enters the serve loop once. -/
theorem c6_interrupt_shutdown_witness :
    (start cfgEx "/x".toList defaultExtensionsMap
        (envOf (BrowserOutcome.returns true) ["/a".toList])).events =
      [Event.chdir "/root".toList, Event.mimeUpdate, Event.bindAttempt 8000, Event.bound,
        Event.banner, Event.browserLaunch (serveUrl 8000), Event.serveEnter]
        ++ ["/a".toList].map Event.serveRequest
        ++ [Event.interrupt, Event.shutdownNotice, Event.socketClose] ∧
    (start cfgEx "/x".toList defaultExtensionsMap
        (envOf (BrowserOutcome.returns true) ["/a".toList])).outcome = Outcome.normal ∧
    countEvent isServeEnterEv (start cfgEx "/x".toList defaultExtensionsMap
        (envOf (BrowserOutcome.returns true) ["/a".toList])).events = 1 :=
  c6_interrupt_shutdown cfgEx "/x".toList defaultExtensionsMap
    (envOf (BrowserOutcome.returns true) ["/a".toList]) true rfl rfl rfl

theorem pathParent_abs (p : Str) (h : isAbsPath p) : isAbsPath (pathParent p) := by
  cases p with
  | nil => simp [isAbsPath] at h
  | cons x xs =>
    have hx : x = '/' := by simpa [isAbsPath] using h
    subst hx
    unfold pathParent
    cases hl : lastIdx '/' ('/' :: xs) with
    | none =>
      exfalso
      simp only [lastIdx] at hl
      cases h2 : lastIdx '/' xs with
      | none => rw [h2] at hl; simp at hl
      | some i => rw [h2] at hl; simp at hl
    | some i =>
      cases i with
      | zero => simp [isAbsPath]
      | succ j => simp [isAbsPath, List.take]

/-- Claim C7: `DevServer.__init__` stores exactly the given port, 8000
when it is omitted, and fixes `project_root` at construction to the parent
directory of the entry artifact `serve.py` (`Path(__file__).parent`);
construction is independent of the process working directory, and for an
absolute entry path the stored root is an absolute path. -/
theorem c7_construction (cwd cwd2 entryFile : Str) (p : Nat) (op : Option Nat)
    (habs : isAbsPath entryFile) :
    (mkDevServer cwd entryFile (some p)).port = p ∧
    (mkDevServer cwd entryFile none).port = 8000 ∧
    (mkDevServer cwd entryFile op).projectRoot = pathParent entryFile ∧
    mkDevServer cwd entryFile op = mkDevServer cwd2 entryFile op ∧
    isAbsPath (mkDevServer cwd entryFile op).projectRoot :=
  ⟨rfl, rfl, rfl, rfl, pathParent_abs entryFile habs⟩

/-- Witness for C7 at the entry artifact `/app/src/serve.py`: port 9000 is
stored as given, an omitted port defaults to 8000, and the root is the
absolute directory `/app/src`. -/
theorem c7_construction_witness :
    (mkDevServer "/cwd".toList "/app/src/serve.py".toList (some 9000)).port = 9000 ∧
    (mkDevServer "/cwd".toList "/app/src/serve.py".toList none).port = 8000 ∧
    (mkDevServer "/cwd".toList "/app/src/serve.py".toList none).projectRoot =
      "/app/src".toList ∧
    isAbsPath (mkDevServer "/cwd".toList "/app/src/serve.py".toList none).projectRoot :=
  ⟨(c7_construction "/cwd".toList "/other".toList "/app/src/serve.py".toList 9000 none
      (by decide)).1,
    (c7_construction "/cwd".toList "/other".toList "/app/src/serve.py".toList 9000 none
      (by decide)).2.1,
    by decide,
    (c7_construction "/cwd".toList "/other".toList "/app/src/serve.py".toList 9000 none
      (by decide)).2.2.2.2⟩

/-- Claim C8 counterexample: in a run that reaches the serve loop, the
browser-launch attempt occurs strictly before the serve loop is entered
(it is issued between the bind and `serve_forever()`), so the launch does
not wait for the serving state. -/
theorem c8_launch_before_serve_counterexample :
    Event.browserLaunch (serveUrl 8000) ∈
      eventsBeforeServe (start cfgEx "/x".toList defaultExtensionsMap
        (envOf (BrowserOutcome.returns true) ["/a".toList])).events ∧
    Event.serveEnter ∈ (start cfgEx "/x".toList defaultExtensionsMap
      (envOf (BrowserOutcome.returns true) ["/a".toList])).events := by
  decide

/-- Claim C8 (amended): on every `start()` invocation whose bind succeeds
(and whose banner is undisturbed), the browser launch is attempted exactly
once, targeting `http://localhost:<port>`, and it happens after the socket
is bound and listening but before the blocking serve loop is entered; when
the bind fails there is no launch attempt at all. -/
theorem c8_launch_once (cfg : DevServer) (cwd0 : Str) (table0 : Str → Option Str)
    (env : Env) (e : Nat) :
    (env.bindErr = none → env.bannerExc = none →
      countEvent isLaunchEv (start cfg cwd0 table0 env).events = 1 ∧
      (∃ rest, (start cfg cwd0 table0 env).events =
        [Event.chdir cfg.projectRoot, Event.mimeUpdate, Event.bindAttempt cfg.port, Event.bound,
          Event.banner, Event.browserLaunch (serveUrl cfg.port)] ++ rest) ∧
      Event.browserLaunch (serveUrl cfg.port) ∈
        eventsBeforeServe (start cfg cwd0 table0 env).events) ∧
    (env.bindErr = some e →
      countEvent isLaunchEv (start cfg cwd0 table0 env).events = 0) := by
  obtain ⟨be, bx, br, rq, f, u, pg⟩ := env
  constructor
  · intro h1 h2
    dsimp only at h1 h2
    subst h1
    subst h2
    cases br with
    | returns b =>
      refine ⟨?_, ⟨[Event.serveEnter] ++ rq.map Event.serveRequest
        ++ [Event.interrupt, Event.shutdownNotice, Event.socketClose], by simp [start]⟩, ?_⟩
      · show countEvent isLaunchEv (_ ++ [Event.serveEnter] ++ rq.map Event.serveRequest
          ++ [Event.interrupt, Event.shutdownNotice, Event.socketClose]) = 1
        rw [countEvent_append, countEvent_append, countEvent_append, srvmap_count_launch]
        simp [countEvent, List.filter, isLaunchEv]
      · show Event.browserLaunch (serveUrl cfg.port) ∈ eventsBeforeServe
          (_ ++ [Event.serveEnter] ++ rq.map Event.serveRequest
            ++ [Event.interrupt, Event.shutdownNotice, Event.socketClose])
        simp [eventsBeforeServe, List.takeWhile, isServeEnterEv]
    | raises ex =>
      cases ex with
      | keyboardInterrupt =>
        exact ⟨by simp [start, countEvent, List.filter, isLaunchEv],
          ⟨[Event.shutdownNotice, Event.socketClose], by simp [start]⟩,
          by simp [start, eventsBeforeServe, List.takeWhile, isServeEnterEv]⟩
      | other i =>
        exact ⟨by simp [start, countEvent, List.filter, isLaunchEv],
          ⟨[Event.socketClose], by simp [start]⟩,
          by simp [start, eventsBeforeServe, List.takeWhile, isServeEnterEv]⟩
  · intro h1
    dsimp only at h1
    subst h1
    simp [start, countEvent, List.filter, isLaunchEv]

/-- Witness for the amended C8: in the concrete quiet run the launch is
attempted once, at `http://localhost:8000`, before the serve loop; in a
run whose bind fails there is no launch attempt. -/
theorem c8_launch_once_witness :
    countEvent isLaunchEv (start cfgEx "/x".toList defaultExtensionsMap
      (envOf (BrowserOutcome.returns true) ["/a".toList])).events = 1 ∧
    Event.browserLaunch (serveUrl 8000) ∈
      eventsBeforeServe (start cfgEx "/x".toList defaultExtensionsMap
        (envOf (BrowserOutcome.returns true) ["/a".toList])).events ∧
    countEvent isLaunchEv (start cfgEx "/x".toList defaultExtensionsMap
      ⟨some 13, none, BrowserOutcome.returns true, [], fsNone, id, pgNone⟩).events = 0 :=
  ⟨((c8_launch_once cfgEx "/x".toList defaultExtensionsMap
      (envOf (BrowserOutcome.returns true) ["/a".toList]) 13).1 rfl rfl).1,
    ((c8_launch_once cfgEx "/x".toList defaultExtensionsMap
      (envOf (BrowserOutcome.returns true) ["/a".toList]) 13).1 rfl rfl).2.2,
    (c8_launch_once cfgEx "/x".toList defaultExtensionsMap
      ⟨some 13, none, BrowserOutcome.returns true, [], fsNone, id, pgNone⟩ 13).2 rfl⟩

/-- Claim C9: `start()` changes the process working directory to
`project_root` as its very first step, before the bind attempt, exactly
once; the change persists through every exit path (normal interrupt, bind
failure, banner or browser exceptions) — the final working directory is
`project_root` whatever it was before — and request resolution uses that
ambient directory (every response of a run is computed against
`project_root` as the serving directory). -/
theorem c9_chdir_persists (cfg : DevServer) (cwd0 : Str)
    (table0 : Str → Option Str) (env : Env) :
    (start cfg cwd0 table0 env).finalCwd = cfg.projectRoot ∧
    (start cfg cwd0 table0 env).events.take 3 =
      [Event.chdir cfg.projectRoot, Event.mimeUpdate, Event.bindAttempt cfg.port] ∧
    countEvent isChdirEv (start cfg cwd0 table0 env).events = 1 ∧
    ((start cfg cwd0 table0 env).responses = [] ∨
      (start cfg cwd0 table0 env).responses =
        env.requests.map (handleRequest env.fs env.unquote env.platformGuess cfg.projectRoot
          (updateExtensionsMap table0))) := by
  obtain ⟨be, bx, br, rq, f, u, pg⟩ := env
  cases be with
  | some e =>
    exact ⟨rfl, rfl, by simp [start, countEvent, List.filter, isChdirEv], Or.inl rfl⟩
  | none =>
    cases bx with
    | some e =>
      exact ⟨rfl, rfl, by simp [start, countEvent, List.filter, isChdirEv], Or.inl rfl⟩
    | none =>
      cases br with
      | returns b =>
        refine ⟨rfl, rfl, ?_, Or.inr rfl⟩
        show countEvent isChdirEv (_ ++ [Event.serveEnter] ++ rq.map Event.serveRequest
          ++ [Event.interrupt, Event.shutdownNotice, Event.socketClose]) = 1
        rw [countEvent_append, countEvent_append, countEvent_append, srvmap_count_chdir]
        simp [countEvent, List.filter, isChdirEv]
      | raises ex =>
        cases ex with
        | keyboardInterrupt =>
          exact ⟨rfl, rfl, by simp [start, countEvent, List.filter, isChdirEv], Or.inl rfl⟩
        | other i =>
          exact ⟨rfl, rfl, by simp [start, countEvent, List.filter, isChdirEv], Or.inl rfl⟩

/-- Claim C10: after a successful bind the listening socket is released
exactly once on every exit path from `start()` — normal interrupt,
interrupt or exception during the banner, browser-launch exception — and
the release is the last event of the run; when the bind itself fails, no
socket was created and none is released. -/
theorem c10_close_once (cfg : DevServer) (cwd0 : Str) (table0 : Str → Option Str)
    (env : Env) (e : Nat) :
    (env.bindErr = none →
      countEvent isCloseEv (start cfg cwd0 table0 env).events = 1 ∧
      (start cfg cwd0 table0 env).events.getLast? = some Event.socketClose) ∧
    (env.bindErr = some e →
      countEvent isCloseEv (start cfg cwd0 table0 env).events = 0) := by
  obtain ⟨be, bx, br, rq, f, u, pg⟩ := env
  constructor
  · intro h1
    dsimp only at h1
    subst h1
    cases bx with
    | some ex =>
      refine ⟨by simp [start, countEvent, List.filter, isCloseEv], ?_⟩
      show ((_ ++ [Event.bound]) ++ [Event.socketClose]).getLast? = some Event.socketClose
      rw [List.getLast?_append_cons]
      rfl
    | none =>
      cases br with
      | returns b =>
        constructor
        · show countEvent isCloseEv (_ ++ [Event.serveEnter] ++ rq.map Event.serveRequest
            ++ [Event.interrupt, Event.shutdownNotice, Event.socketClose]) = 1
          rw [countEvent_append, countEvent_append, countEvent_append, srvmap_count_close]
          simp [countEvent, List.filter, isCloseEv]
        · show (_ ++ [Event.serveEnter] ++ rq.map Event.serveRequest
            ++ [Event.interrupt, Event.shutdownNotice, Event.socketClose]).getLast? =
              some Event.socketClose
          rw [List.getLast?_append_cons]
          rfl
      | raises ex =>
        cases ex with
        | keyboardInterrupt =>
          refine ⟨by simp [start, countEvent, List.filter, isCloseEv], ?_⟩
          show (_ ++ [Event.shutdownNotice, Event.socketClose]).getLast? =
            some Event.socketClose
          rw [List.getLast?_append_cons]
          rfl
        | other i =>
          refine ⟨by simp [start, countEvent, List.filter, isCloseEv], ?_⟩
          show (_ ++ [Event.socketClose]).getLast? = some Event.socketClose
          rw [List.getLast?_append_cons]
          rfl
  · intro h1
    dsimp only at h1
    subst h1
    simp [start, countEvent, List.filter, isCloseEv]

/-- Witness for C10: the quiet interrupted run releases the socket exactly
once, as its final event; the failed-bind run never releases a socket. -/
theorem c10_close_once_witness :
    countEvent isCloseEv (start cfgEx "/x".toList defaultExtensionsMap
      (envOf (BrowserOutcome.returns true) ["/a".toList])).events = 1 ∧
    (start cfgEx "/x".toList defaultExtensionsMap
      (envOf (BrowserOutcome.returns true) ["/a".toList])).events.getLast? =
        some Event.socketClose ∧
    countEvent isCloseEv (start cfgEx "/x".toList defaultExtensionsMap
      ⟨some 98, none, BrowserOutcome.returns false, [], fsNone, id, pgNone⟩).events = 0 :=
  ⟨((c10_close_once cfgEx "/x".toList defaultExtensionsMap
      (envOf (BrowserOutcome.returns true) ["/a".toList]) 98).1 rfl).1,
    ((c10_close_once cfgEx "/x".toList defaultExtensionsMap
      (envOf (BrowserOutcome.returns true) ["/a".toList]) 98).1 rfl).2,
    (c10_close_once cfgEx "/x".toList defaultExtensionsMap
      ⟨some 98, none, BrowserOutcome.returns false, [], fsNone, id, pgNone⟩ 98).2 rfl⟩
